import Mathlib

/-!
Verification development for the MetricDB repository
(`src/MetricDB/src/main.py`), a thin metric-logging wrapper around a
single SQLite datafile.

Shallow embedding conventions:

* A SQLite table is modelled by `MetricDB.Table`: the list of metric
  columns (in schema order, the implicit `id` identity column kept
  separate), the next `AUTOINCREMENT` id, and the rows in storage
  order.  Rows are appended by `INSERT`, so the stored row list is in
  ascending-`id` order; `ORDER BY id DESC` is realised as `List.reverse`
  of the stored order, and the spec-side reading is expressed through an
  explicit insertion sort by descending id (`sortByIdDesc`).
* Every stored cell is TEXT (`Option String`; `none` is SQL NULL), as in
  the source where all columns are declared `TEXT`.
* Python's `float(...)` on the stored text is modelled by `pyFloat`,
  a parser for optionally signed decimal literals returning `Option ℚ`
  (`none` models the `ValueError` raise).  Python floats are modelled as
  exact rationals: every numeric value appearing in the claims is
  exactly representable.
* Fallible operations (`float`, the `ValueError` raises on missing
  tables) return `Except String _`.
-/

namespace MetricDB

/-- One stored row: the autoincrement id plus the cells supplied at its
INSERT (column name ↦ stored TEXT value, `none` = NULL).  Columns of the
table absent from `cells` read as NULL, exactly as SQLite fills columns
not named in the INSERT with NULL. -/
structure Row where
  id : Nat
  cells : List (String × Option String)
deriving DecidableEq, Repr

/-- Looks a key up in an association list by string equality (the
embedding of reading one named column of a row / one named table of the
database). -/
def lookupStr {α : Type} (k : String) : List (String × α) → Option α
  | [] => none
  | (a, b) :: rest => if a = k then some b else lookupStr k rest

/-- Value of column `c` in row `r`, as returned by `SELECT "c"`:
the id column holds the integer id (rendered as text here, since the
Python layer immediately feeds it to `float`), any other column holds
the cell value supplied at INSERT time, NULL when absent. -/
def Row.selectVal (r : Row) (c : String) : Option String :=
  if c = "id" then some (toString r.id) else (lookupStr c r.cells).join

/-- One table of the datafile: metric columns in schema order (the
`id INTEGER PRIMARY KEY AUTOINCREMENT` column is implicit and kept out
of `cols`), the next id `AUTOINCREMENT` will assign, and the rows in
storage (insertion, ascending-id) order. -/
structure Table where
  cols : List String
  nextId : Nat
  rows : List Row
deriving DecidableEq, Repr

/-- The datafile: association list of named tables, in creation order
(the order `sqlite_master` enumerates them). -/
abbrev DB := List (String × Table)

/-- A fresh datafile has no tables. -/
def emptyDB : DB := []

/-- Replaces the named table when present, appends it otherwise
(the net effect of the DDL/DML of `log` on `sqlite_master`). -/
def setTable (db : DB) (name : String) (t : Table) : DB :=
  if (lookupStr name db).isSome then
    db.map (fun p => if p.1 = name then (name, t) else p)
  else
    db ++ [(name, t)]

/-- Column list reported by `PRAGMA table_info(name)`: empty for a
missing table, otherwise `id` followed by the metric columns in schema
order (source lines 32–33, 81–82, 132–133, 206–207). -/
def tableColumns (db : DB) (name : String) : List String :=
  match lookupStr name db with
  | none => []
  | some t => "id" :: t.cols

/-! ### Python `float` on stored TEXT -/

/-- Reads a digit string left to right, accumulating its value; fails at
the first non-digit character. -/
def readDigits : List Char → Nat → Option Nat
  | [], acc => some acc
  | c :: rest, acc =>
      if c.isDigit then readDigits rest (acc * 10 + (c.toNat - 48)) else none

/-- Magnitude part of a Python float literal: digits with at most one
decimal point (at least one digit overall).  `"5."` and `".5"` parse, as
in Python; `"abc"`, `""` and `"."` do not. -/
def pyFloatMag (cs : List Char) : Option ℚ :=
  let ip := cs.takeWhile (fun c => c ≠ '.')
  match cs.dropWhile (fun c => c ≠ '.') with
  | [] =>
      match ip with
      | [] => none
      | _ => (readDigits ip 0).map (fun n => (n : ℚ))
  | _ :: frac =>
      if ip.isEmpty ∧ frac.isEmpty then none
      else
        match readDigits ip 0, readDigits frac 0 with
        | some i, some f => some ((i : ℚ) + (f : ℚ) / ((10 : ℚ) ^ frac.length))
        | _, _ => none

/-- Model of Python `float(s)` on the text this store produces: an
optionally signed decimal literal, parsed exactly into `ℚ`; `none`
models the `ValueError` raise on unparsable text.  (Exponent, `inf` and
`nan` forms are not produced by the claims' inputs and are treated as
unparsable.) -/
def pyFloat (s : String) : Option ℚ :=
  match s.data with
  | '-' :: rest => (pyFloatMag rest).map (fun q => -q)
  | '+' :: rest => pyFloatMag rest
  | cs => pyFloatMag cs

/-- The list comprehension of source line 54:
`[float(result[0]) for result in results if result[0] is not None]` —
non-NULL values are converted left to right and the first unparsable one
raises `ValueError`. -/
def floatAll : List String → Except String (List ℚ)
  | [] => Except.ok []
  | s :: rest =>
      match pyFloat s with
      | none => Except.error ("could not convert string to float: '" ++ s ++ "'")
      | some q =>
          match floatAll rest with
          | Except.error e => Except.error e
          | Except.ok qs => Except.ok (q :: qs)

/-- Arithmetic mean `sum(values) / len(values)` of source line 57. -/
def listMean (l : List ℚ) : ℚ := l.sum / (l.length : ℚ)

/-! ### get_moving_average -/

/-- Result rows of the query of source lines 41–47:
`SELECT "key" FROM t WHERE "key" IS NOT NULL ORDER BY id DESC LIMIT w`.
Stored rows are in ascending-id order, so `ORDER BY id DESC` is their
reverse. -/
def Table.fetchWindow (t : Table) (key : String) (w : Nat) : List (Option String) :=
  (((t.rows.filter (fun r => (r.selectVal key).isSome)).reverse).take w).map
    (fun r => r.selectVal key)

/-- The selected window as plain strings (its rows all carry a non-NULL
value, by the `WHERE` clause). -/
def Table.windowRaw (t : Table) (key : String) (w : Nat) : List String :=
  (t.fetchWindow key w).filterMap id

/-- Embedding of `MetricDB.get_moving_average` (source lines 27–64).
A missing table yields no columns from `PRAGMA table_info`, so the key
test fails and the 0 sentinel is returned; a missing key likewise
returns 0; otherwise the selected non-NULL values are converted by
`float` (raising on unparsable text) and averaged, with 0 returned when
nothing was selected. -/
def get_moving_average (db : DB) (key : String) (name_table : String := "main")
    (window_size : Nat := 12) : Except String ℚ :=
  match lookupStr name_table db with
  | none => Except.ok 0
  | some t =>
      if key ∈ "id" :: t.cols then
        let results := t.fetchWindow key window_size
        if results.isEmpty then Except.ok 0
        else
          match floatAll (results.filterMap id) with
          | Except.error e => Except.error e
          | Except.ok values =>
              if values.isEmpty then Except.ok 0
              else Except.ok (listMean values)
      else Except.ok 0

/-! ### log -/

/-- Keys of one `log` call's `data` dict, in iteration order. -/
def keysOf (data : List (String × Option String)) : List String := data.map Prod.fst

/-- Embedding of `MetricDB.log` (source lines 66–105).  `data` is the
Python dict as an association list in iteration order (dict keys are
necessarily distinct, and a key literally named `id` would make the
generated DDL fail; theorems restrict to such well-formed inputs).
A missing table is created with the data's keys as TEXT columns; then
every data key not yet a column is appended by `ALTER TABLE ADD COLUMN`
(the existing-column check of line 85 includes `id`); finally one row is
inserted holding exactly the supplied cells, with the next
autoincrement id. -/
def log (db : DB) (data : List (String × Option String))
    (name_table : String := "main") : DB :=
  let t :=
    match lookupStr name_table db with
    | some t => t
    | none => { cols := keysOf data, nextId := 1, rows := [] }
  let newCols := (keysOf data).filter (fun k => k ∉ "id" :: t.cols)
  let t' : Table :=
    { cols := t.cols ++ newCols
      nextId := t.nextId + 1
      rows := t.rows ++ [{ id := t.nextId, cells := data }] }
  setTable db name_table t'

/-- Folds a sequence of `log` calls (left to right) into the datafile. -/
def logAll (db : DB) (calls : List (List (String × Option String)))
    (name_table : String) : DB :=
  calls.foldl (fun d data => log d data name_table) db

/-- Rows of the named table (empty when the table is missing); used to
state row-level properties. -/
def rowsOf (db : DB) (name : String) : List Row :=
  match lookupStr name db with
  | none => []
  | some t => t.rows

/-- The rows inserted by a sequence of `log` calls into a table whose
next autoincrement id is `n`: consecutive ids, cells exactly the
supplied data. -/
def buildRows (n : Nat) : List (List (String × Option String)) → List Row
  | [] => []
  | d :: ds => { id := n, cells := d } :: buildRows (n + 1) ds

/-! ### Spec-side ordering: `ORDER BY id DESC` as an explicit sort -/

/-- Inserts a row into a descending-by-id sorted list, keeping it
sorted. -/
def insertDesc (r : Row) : List Row → List Row
  | [] => [r]
  | y :: ys => if y.id ≤ r.id then r :: y :: ys else y :: insertDesc r ys

/-- Insertion sort of rows by descending id: the order `ORDER BY id
DESC` returns rows in, defined independently of the storage order. -/
def sortByIdDesc : List Row → List Row
  | [] => []
  | r :: rs => insertDesc r (sortByIdDesc rs)

/-- Spec-side window (following the specification's words): sort the
rows by descending identity column — most recently inserted first —
keep those with a non-null value of `key`, truncate to the window size,
and read off the values. -/
def specWindow (t : Table) (key : String) (w : Nat) : List String :=
  (((sortByIdDesc t.rows).filter (fun r => (r.selectVal key).isSome)).take w).filterMap
    (fun r => r.selectVal key)

/-! ### show_last_row and the export helpers -/

/-- Embedding of `MetricDB.show_last_row` (source lines 193–217): raises
`ValueError` when `sqlite_master` has no such table; otherwise reports
the row selected by `ORDER BY rowid DESC LIMIT 1` (for these tables
`rowid` is the `id` alias) as the printed `dict(zip(columns, row))`, or
no row (with only a verbose "empty" warning) when the table is empty. -/
def show_last_row (db : DB) (name_table : String := "main") :
    Except String (Option (List (String × Option String))) :=
  match lookupStr name_table db with
  | none => Except.error ("Table '" ++ name_table ++ "' does not exist in the database.")
  | some t =>
      match t.rows.reverse.head? with
      | some r => Except.ok (some (("id" :: t.cols).map (fun c => (c, r.selectVal c))))
      | none => Except.ok none

/-- Full contents of a table as pandas sees it: the column list from
`PRAGMA table_info` and every row of `SELECT *` in storage order. -/
def tableFrame (t : Table) : List String × List (List (Option String)) :=
  ("id" :: t.cols, t.rows.map (fun r => ("id" :: t.cols).map (fun c => r.selectVal c)))

/-- Embedding of `MetricDB.get_pandas_dataframe` (source lines 141–168):
raises `ValueError` when the table is absent from `sqlite_master`,
otherwise returns the full table contents. -/
def get_pandas_dataframe (db : DB) (name_table : String := "main") :
    Except String (List String × List (List (Option String))) :=
  match lookupStr name_table db with
  | none => Except.error ("Table '" ++ name_table ++ "' does not exist in the database.")
  | some t => Except.ok (tableFrame t)

/-- Embedding of `MetricDB.save_as_pandas_dataframe` (source lines
114–139): same existence check and read as `get_pandas_dataframe`; the
returned frame is the content written to the CSV file. -/
def save_as_pandas_dataframe (db : DB) (name_table : String := "main") :
    Except String (List String × List (List (Option String))) :=
  match lookupStr name_table db with
  | none => Except.error ("Table '" ++ name_table ++ "' does not exist in the database.")
  | some t => Except.ok (tableFrame t)

/-! ### Construction (`__init__`) -/

/-- Messages the constructor can print when verbose (source lines
18–24). -/
inductive InitMsg
  | created
  | loaded
  | headerDump
deriving DecidableEq, Repr

/-- The datafile as seen through the filesystem: whether the path
exists on disk, and the tables stored in it (none when the path does
not exist). -/
structure Datafile where
  existsOnDisk : Bool
  db : DB
deriving DecidableEq, Repr

/-- Effect of `sqlite3.connect(path)` (source line 16) on the path's
existence: SQLite creates an empty database file immediately when the
path is absent, so after the connect the path exists in every case. -/
def sqlite3_connect (_file_exists : Bool) : Bool :=
  true

/-- Embedding of `MetricDB.__init__` (source lines 9–24): connect
(creating the file when absent — an absent path yields a store with no
tables, an existing path keeps its tables untouched), then the two
existence tests of lines 19 and 22, both evaluated AFTER the connect,
decide which verbose messages are printed.  `mkdir` and the path
arithmetic of lines 12–13 have no effect on the stored tables and are
not modelled further. -/
def metricDBInit (f : Datafile) (verbose : Bool) : Datafile × List InitMsg :=
  let existsAfterConnect := sqlite3_connect f.existsOnDisk
  let db := if f.existsOnDisk then f.db else emptyDB
  let msgs :=
    (if !existsAfterConnect && verbose then [InitMsg.created] else []) ++
    (if existsAfterConnect && verbose then [InitMsg.loaded, InitMsg.headerDump] else [])
  ({ existsOnDisk := existsAfterConnect, db := db }, msgs)

/-! ### Helper lemmas -/

theorem lookupStr_eq_none {α : Type} (k : String) (l : List (String × α))
    (h : k ∉ l.map Prod.fst) : lookupStr k l = none := by
  induction l with
  | nil => rfl
  | cons p rest ih =>
      simp only [List.map_cons, List.mem_cons] at h
      push_neg at h
      simp [lookupStr, Ne.symm h.1, ih h.2]

theorem lookupStr_map_set_self (db : DB) (name : String) (t : Table)
    (h : (lookupStr name db).isSome) :
    lookupStr name (db.map (fun p => if p.1 = name then (name, t) else p)) = some t := by
  induction db with
  | nil => simp [lookupStr] at h
  | cons p rest ih =>
      by_cases hp : p.1 = name
      · rw [List.map_cons, if_pos hp]
        simp [lookupStr]
      · rw [List.map_cons, if_neg hp]
        have h' : (lookupStr name rest).isSome := by
          simpa [lookupStr, hp] using h
        simpa [lookupStr, hp] using ih h'

theorem lookupStr_append_one {α : Type} (k name : String) (l : List (String × α))
    (t : α) (h : k ≠ name) :
    lookupStr k (l ++ [(name, t)]) = lookupStr k l := by
  induction l with
  | nil => simp [lookupStr, Ne.symm h]
  | cons p rest ih =>
      by_cases hp : p.1 = k
      · simp [lookupStr, hp]
      · simp [lookupStr, hp, ih]

theorem lookupStr_setTable_self (db : DB) (name : String) (t : Table) :
    lookupStr name (setTable db name t) = some t := by
  unfold setTable
  by_cases h : (lookupStr name db).isSome
  · rw [if_pos h]
    exact lookupStr_map_set_self db name t h
  · rw [if_neg h]
    induction db with
    | nil => simp [lookupStr]
    | cons p rest ih =>
        by_cases hp : p.1 = name
        · simp [lookupStr, hp] at h
        · have h' : ¬(lookupStr name rest).isSome := by
            simpa [lookupStr, hp] using h
          simpa [lookupStr, hp] using ih h'

theorem lookupStr_map_set_other (db : DB) (name other : String) (t : Table)
    (h : other ≠ name) :
    lookupStr other (db.map (fun p => if p.1 = name then (name, t) else p)) =
      lookupStr other db := by
  induction db with
  | nil => rfl
  | cons p rest ih =>
      by_cases hp : p.1 = name
      · have hpo : p.1 ≠ other := by rw [hp]; exact fun he => h he.symm
        rw [List.map_cons, if_pos hp]
        simp [lookupStr, hpo, Ne.symm h, ih]
      · rw [List.map_cons, if_neg hp]
        by_cases ho : p.1 = other
        · simp [lookupStr, ho]
        · simp [lookupStr, ho, ih]

theorem lookupStr_setTable_other (db : DB) (name other : String) (t : Table)
    (h : other ≠ name) :
    lookupStr other (setTable db name t) = lookupStr other db := by
  unfold setTable
  by_cases hs : (lookupStr name db).isSome
  · rw [if_pos hs]
    exact lookupStr_map_set_other db name other t h
  · rw [if_neg hs]
    exact lookupStr_append_one other name db t h

theorem floatAll_ok (l : List String) (h : ∀ s ∈ l, (pyFloat s).isSome) :
    floatAll l = Except.ok (l.filterMap pyFloat) := by
  induction l with
  | nil => rfl
  | cons s rest ih =>
      obtain ⟨q, hq⟩ := Option.isSome_iff_exists.mp (h s (by simp))
      have ihr := ih (fun x hx => h x (by simp [hx]))
      simp [floatAll, hq, ihr, List.filterMap_cons]

theorem floatAll_error (l : List String) (s : String) (hs : s ∈ l)
    (hbad : pyFloat s = none) : ∃ e, floatAll l = Except.error e := by
  induction l with
  | nil => cases hs
  | cons a rest ih =>
      rcases List.mem_cons.mp hs with h | h
      · subst h
        exact ⟨"could not convert string to float: '" ++ s ++ "'",
          by simp [floatAll, hbad]⟩
      · cases hpa : pyFloat a with
        | none =>
            exact ⟨"could not convert string to float: '" ++ a ++ "'",
              by simp [floatAll, hpa]⟩
        | some q =>
            obtain ⟨e, he⟩ := ih h
            exact ⟨e, by simp [floatAll, hpa, he]⟩

theorem filterMap_isSome_ne_nil {α β : Type} (f : α → Option β) (l : List α)
    (h : ∀ a ∈ l, (f a).isSome) (hne : l ≠ []) : l.filterMap f ≠ [] := by
  cases l with
  | nil => exact absurd rfl hne
  | cons a rest =>
      obtain ⟨b, hb⟩ := Option.isSome_iff_exists.mp (h a (by simp))
      simp [List.filterMap_cons, hb]

theorem insertDesc_of_lt (r : Row) (l : List Row) (h : ∀ y ∈ l, r.id < y.id) :
    insertDesc r l = l ++ [r] := by
  induction l with
  | nil => rfl
  | cons y ys ih =>
      have hy : r.id < y.id := h y (by simp)
      have : ¬y.id ≤ r.id := by omega
      simp [insertDesc, this, ih (fun z hz => h z (by simp [hz]))]

theorem sortByIdDesc_of_ascending (l : List Row)
    (h : l.Pairwise (fun a b => a.id < b.id)) : sortByIdDesc l = l.reverse := by
  induction l with
  | nil => rfl
  | cons a rest ih =>
      rw [List.pairwise_cons] at h
      have hall : ∀ y ∈ rest.reverse, a.id < y.id := by
        intro y hy
        exact h.1 y (List.mem_reverse.mp hy)
      simp [sortByIdDesc, ih h.2, insertDesc_of_lt a rest.reverse hall,
        List.reverse_cons]

/-- The spec-side window coincides with the strings the query of
lines 41–47 hands to the averaging loop, whenever the stored rows are
in ascending-id order (as every table built by `log` is). -/
theorem specWindow_eq_windowRaw (t : Table) (key : String) (w : Nat)
    (hsort : t.rows.Pairwise (fun a b => a.id < b.id)) :
    specWindow t key w = t.windowRaw key w := by
  unfold specWindow Table.windowRaw Table.fetchWindow
  rw [sortByIdDesc_of_ascending t.rows hsort, List.filter_reverse,
    List.filterMap_map]
  simp [Function.comp_def]

theorem fetchWindow_all_isSome (t : Table) (key : String) (w : Nat) :
    ∀ o ∈ t.fetchWindow key w, o.isSome := by
  intro o ho
  unfold Table.fetchWindow at ho
  simp only [List.mem_map] at ho
  obtain ⟨r, hr, rfl⟩ := ho
  have hr' := List.mem_reverse.mp (List.mem_of_mem_take hr)
  exact (List.mem_filter.mp hr').2

theorem windowRaw_ne_nil_fetch (t : Table) (key : String) (w : Nat)
    (h : t.windowRaw key w ≠ []) : t.fetchWindow key w ≠ [] := by
  intro hfe
  apply h
  unfold Table.windowRaw
  rw [hfe]
  rfl

theorem fetchWindow_nil_of_windowRaw_nil (t : Table) (key : String) (w : Nat)
    (h : t.windowRaw key w = []) : t.fetchWindow key w = [] := by
  cases hf : t.fetchWindow key w with
  | nil => rfl
  | cons o os =>
      have ho : o.isSome := fetchWindow_all_isSome t key w o (by rw [hf]; simp)
      obtain ⟨v, hv⟩ := Option.isSome_iff_exists.mp ho
      have hr : t.windowRaw key w = v :: os.filterMap id := by
        unfold Table.windowRaw
        rw [hf, hv]
        simp [List.filterMap_cons]
      rw [hr] at h
      cases h

theorem filterMap_filter_isSome {α β : Type} (f : α → Option β) (l : List α) :
    (l.filter (fun a => (f a).isSome)).filterMap f = l.filterMap f := by
  induction l with
  | nil => rfl
  | cons a rest ih =>
      cases hfa : f a with
      | none => simp [List.filter_cons, hfa, List.filterMap_cons, ih]
      | some b => simp [List.filter_cons, hfa, List.filterMap_cons, ih]

theorem listMean_reverse (l : List ℚ) : listMean l.reverse = listMean l := by
  simp [listMean, List.sum_reverse, List.length_reverse]

/-- The strings the query hands to the conversion loop, written without
the intermediate one-tuples: values of `key` over the filtered,
reversed, truncated rows. -/
theorem windowRaw_eq (t : Table) (key : String) (w : Nat) :
    t.windowRaw key w =
      (((t.rows.filter (fun r => (r.selectVal key).isSome)).reverse).take w).filterMap
        (fun r => r.selectVal key) := by
  unfold Table.windowRaw Table.fetchWindow
  rw [List.filterMap_map]
  simp [Function.comp_def]

theorem isEmpty_false_of_ne_nil {α : Type} (l : List α) (h : l ≠ []) :
    l.isEmpty = false := by
  cases l with
  | nil => exact absurd rfl h
  | cons a rest => rfl

/-! ### Claim theorems: get_moving_average -/

/-- Claim C1: for every table (stored in insertion order, ascending
ids) whose selected window for `key` is non-empty and numeric,
`get_moving_average` returns the arithmetic mean of the `windowSize`
most recently inserted (descending id) non-null values of that column,
`specWindow` being the spec-side reading of that window. -/
theorem moving_average_recent_window_mean (db : DB) (t : Table) (key nt : String)
    (w : Nat)
    (ht : lookupStr nt db = some t)
    (hsort : t.rows.Pairwise (fun a b => a.id < b.id))
    (hkey : key ∈ "id" :: t.cols)
    (hparse : ∀ s ∈ specWindow t key w, (pyFloat s).isSome)
    (hne : specWindow t key w ≠ []) :
    get_moving_average db key nt w =
      Except.ok (listMean ((specWindow t key w).filterMap pyFloat)) := by
  have hsw := specWindow_eq_windowRaw t key w hsort
  rw [hsw] at hparse hne ⊢
  have hfetch : (t.fetchWindow key w).isEmpty = false := by
    exact isEmpty_false_of_ne_nil (t.fetchWindow key w)
      ((windowRaw_ne_nil_fetch t key w hne))
  have hfa := floatAll_ok (t.windowRaw key w) hparse
  have hvne : (t.windowRaw key w).filterMap pyFloat ≠ [] :=
    filterMap_isSome_ne_nil pyFloat (t.windowRaw key w) hparse hne
  have hvempty : ((t.windowRaw key w).filterMap pyFloat).isEmpty = false := by
    exact isEmpty_false_of_ne_nil ((t.windowRaw key w).filterMap pyFloat)
      (hvne)
  simp only [get_moving_average, ht, if_pos hkey, hfetch, Bool.false_eq_true,
    if_false]
  have hwr : (t.fetchWindow key w).filterMap id = t.windowRaw key w := rfl
  rw [hwr, hfa]
  simp [hvempty]

/-- Claim C2: when the column holds fewer than `windowSize` non-null
values (and at least one, all numeric), the returned mean is over
exactly the available values — no padding. -/
theorem moving_average_partial_window_mean (db : DB) (t : Table) (key nt : String)
    (w : Nat)
    (ht : lookupStr nt db = some t)
    (hkey : key ∈ "id" :: t.cols)
    (hcount : (t.rows.filter (fun r => (r.selectVal key).isSome)).length < w)
    (hparse : ∀ s ∈ t.rows.filterMap (fun r => r.selectVal key), (pyFloat s).isSome)
    (hne : t.rows.filterMap (fun r => r.selectVal key) ≠ []) :
    get_moving_average db key nt w =
      Except.ok (listMean ((t.rows.filterMap (fun r => r.selectVal key)).filterMap pyFloat)) := by
  have hall : t.windowRaw key w = (t.rows.filterMap (fun r => r.selectVal key)).reverse := by
    rw [windowRaw_eq]
    rw [List.take_of_length_le (by rw [List.length_reverse]; exact le_of_lt hcount)]
    rw [List.filterMap_reverse, filterMap_filter_isSome]
  have hparse' : ∀ s ∈ t.windowRaw key w, (pyFloat s).isSome := by
    intro s hs
    rw [hall] at hs
    exact hparse s (List.mem_reverse.mp hs)
  have hne' : t.windowRaw key w ≠ [] := by
    rw [hall]
    simpa using hne
  have hfetch : (t.fetchWindow key w).isEmpty = false := by
    exact isEmpty_false_of_ne_nil (t.fetchWindow key w)
      ((windowRaw_ne_nil_fetch t key w hne'))
  have hfa := floatAll_ok (t.windowRaw key w) hparse'
  have hvne : (t.windowRaw key w).filterMap pyFloat ≠ [] :=
    filterMap_isSome_ne_nil pyFloat (t.windowRaw key w) hparse' hne'
  have hvempty : ((t.windowRaw key w).filterMap pyFloat).isEmpty = false := by
    exact isEmpty_false_of_ne_nil ((t.windowRaw key w).filterMap pyFloat)
      (hvne)
  simp only [get_moving_average, ht, if_pos hkey, hfetch, Bool.false_eq_true,
    if_false]
  have hwr : (t.fetchWindow key w).filterMap id = t.windowRaw key w := rfl
  rw [hwr, hfa]
  simp only [hvempty, Bool.false_eq_true, if_false]
  rw [hall, List.filterMap_reverse, listMean_reverse]

/-- Claim C3 (amended): an unparsable non-null text value inside the
selected window makes `get_moving_average` raise `ValueError` — it is
not skipped. -/
theorem moving_average_unparsable_raises (db : DB) (t : Table) (key nt : String)
    (w : Nat) (s : String)
    (ht : lookupStr nt db = some t)
    (hkey : key ∈ "id" :: t.cols)
    (hs : s ∈ t.windowRaw key w)
    (hbad : pyFloat s = none) :
    ∃ e, get_moving_average db key nt w = Except.error e := by
  have hne : t.windowRaw key w ≠ [] := List.ne_nil_of_mem hs
  have hfetch : (t.fetchWindow key w).isEmpty = false := by
    exact isEmpty_false_of_ne_nil (t.fetchWindow key w)
      ((windowRaw_ne_nil_fetch t key w hne))
  obtain ⟨e, he⟩ := floatAll_error (t.windowRaw key w) s hs hbad
  refine ⟨e, ?_⟩
  simp only [get_moving_average, ht, if_pos hkey, hfetch, Bool.false_eq_true,
    if_false]
  have hwr : (t.fetchWindow key w).filterMap id = t.windowRaw key w := rfl
  rw [hwr, he]

/-- Claim C4 (amended): the 0 sentinel is returned (never an error)
when the key is not a column of the table — a missing table having no
columns at all — and likewise when the column exists but the query
selects no values (no non-null values stored).  (When non-null but
unparsable values are selected the call raises instead; see the C3/C4
counterexamples.) -/
theorem moving_average_missing_key_or_no_values_zero (db : DB) (key nt : String)
    (w : Nat)
    (h : key ∉ tableColumns db nt ∨
      ∀ t, lookupStr nt db = some t → t.windowRaw key w = []) :
    get_moving_average db key nt w = Except.ok 0 := by
  cases hl : lookupStr nt db with
  | none => simp [get_moving_average, hl]
  | some t =>
      rcases h with h | h
      · have hk : key ∉ "id" :: t.cols := by
          intro hmem
          exact h (by simpa [tableColumns, hl] using hmem)
        simp [get_moving_average, hl, hk]
      · have hfetch : t.fetchWindow key w = [] :=
          fetchWindow_nil_of_windowRaw_nil t key w (h t hl)
        by_cases hkey : key ∈ "id" :: t.cols
        · simp [get_moving_average, hl, hkey, hfetch]
        · simp [get_moving_average, hl, hkey]

/-! ### Concrete datafiles for the witnesses and counterexamples -/

/-- Values 1..20 logged sequentially under key "loss". -/
def db20 : DB :=
  logAll emptyDB ((List.range 20).map (fun i => [("loss", some (toString (i + 1)))])) "main"

/-- The "main" table of `db20`. -/
def t20 : Table :=
  { cols := ["loss"], nextId := 21,
    rows := buildRows 1 ((List.range 20).map (fun i => [("loss", some (toString (i + 1)))])) }

/-- Values 1, 2, 3 logged sequentially under key "m". -/
def db3 : DB := logAll emptyDB [[("m", some "1")], [("m", some "2")], [("m", some "3")]] "main"

/-- The "main" table of `db3`. -/
def t3 : Table :=
  { cols := ["m"], nextId := 4,
    rows := buildRows 1 [[("m", some "1")], [("m", some "2")], [("m", some "3")]] }

/-- A datafile holding one unparsable text value under "loss". -/
def dbAbc : DB := log emptyDB [("loss", some "abc")] "main"

/-- The "main" table of `dbAbc`. -/
def tAbc : Table :=
  { cols := ["loss"], nextId := 2, rows := [{ id := 1, cells := [("loss", some "abc")] }] }

/-- A datafile whose column "m" holds only the unparsable text "oops". -/
def dbOops : DB := log emptyDB [("m", some "oops")] "main"

/-- Witness C1: after logging 1..20 the window of size 5 selects
{20,19,18,17,16} and the call returns their mean, 18. -/
theorem moving_average_recent_window_mean_witness :
    get_moving_average db20 "loss" "main" 5 = Except.ok 18 := by
  have h := moving_average_recent_window_mean db20 t20 "loss" "main" 5 (by rfl)
    (by decide) (by decide) (by decide) (by decide)
  rw [h]
  have hv : (specWindow t20 "loss" 5).filterMap pyFloat = [20, 19, 18, 17, 16] := by
    decide
  rw [hv]
  have hm : listMean [(20 : ℚ), 19, 18, 17, 16] = 18 := by
    norm_num [listMean]
  rw [hm]

/-- Witness C2: with only {1,2,3} logged and window size 12, the call
averages exactly the three available values to 2. -/
theorem moving_average_partial_window_mean_witness :
    get_moving_average db3 "m" "main" 12 = Except.ok 2 := by
  have h := moving_average_partial_window_mean db3 t3 "m" "main" 12 (by rfl)
    (by decide) (by decide) (by decide) (by decide)
  rw [h]
  have hv : (t3.rows.filterMap (fun r => r.selectVal "m")).filterMap pyFloat = [1, 2, 3] := by
    decide
  rw [hv]
  have hm : listMean [(1 : ℚ), 2, 3] = 2 := by
    norm_num [listMean]
  rw [hm]

/-- Counterexample C3: with the text "abc" stored in the selected
window, `get_moving_average` raises `ValueError` — the value is not
silently excluded and no mean (nor the 0 sentinel) is returned. -/
theorem moving_average_unparsable_raises_cex :
    get_moving_average dbAbc "loss" "main" 12 =
      Except.error "could not convert string to float: 'abc'" := by
  rfl

/-- Witness C3 (amended): the hypotheses of
`moving_average_unparsable_raises` hold at `dbAbc` with the unparsable
value "abc", and the call indeed errors. -/
theorem moving_average_unparsable_raises_witness :
    ("abc" ∈ tAbc.windowRaw "loss" 12 ∧ pyFloat "abc" = none) ∧
      ∃ e, get_moving_average dbAbc "loss" "main" 12 = Except.error e :=
  ⟨⟨by decide, by decide⟩,
    moving_average_unparsable_raises dbAbc tAbc "loss" "main" 12 "abc" (by rfl)
      (by decide) (by decide) (by decide)⟩

/-- Counterexample C4: the column "m" of `dbOops` exists and holds no
non-null PARSABLE values, yet the call raises `ValueError` instead of
returning the 0 sentinel the claim promises. -/
theorem moving_average_no_parsable_not_zero_cex :
    get_moving_average dbOops "m" "main" 12 =
        Except.error "could not convert string to float: 'oops'" ∧
      get_moving_average dbOops "m" "main" 12 ≠ Except.ok 0 := by
  constructor
  · rfl
  · intro h
    have h' : (Except.error "could not convert string to float: 'oops'" :
        Except String ℚ) = Except.ok 0 := by
      rw [← h]
      rfl
    cases h'

/-- Witness C4 (amended): a key never logged to `db20` is not a column,
and the call returns the 0 sentinel. -/
theorem moving_average_missing_key_or_no_values_zero_witness :
    ("never" ∉ tableColumns db20 "main") ∧
      get_moving_average db20 "never" "main" 12 = Except.ok 0 :=
  ⟨by decide,
    moving_average_missing_key_or_no_values_zero db20 "never" "main" 12
      (Or.inl (by decide))⟩

/-! ### Claim theorems: log -/

theorem buildRows_zip_cells (calls : List (List (String × Option String))) :
    ∀ n, ∀ p ∈ (buildRows n calls).zip calls, p.1.cells = p.2 := by
  induction calls with
  | nil =>
      intro n p hp
      cases hp
  | cons d ds ih =>
      intro n p hp
      rw [buildRows, List.zip_cons_cons] at hp
      rcases List.mem_cons.mp hp with h | h
      · rw [h]
      · exact ih (n + 1) p h

/-- A sequence of `log` calls into a table already holding `t`, all of
whose keys are fresh (not yet columns, not `id`, and globally distinct):
the columns gain exactly the new keys in order, and the rows gain one
row per call with consecutive ids. -/
theorem logAll_existing (nt : String) (calls : List (List (String × Option String)))
    (db : DB) (t : Table)
    (ht : lookupStr nt db = some t)
    (hfresh : ∀ d ∈ calls, ∀ k ∈ keysOf d, k ∉ t.cols ∧ k ≠ "id")
    (hnodup : ((calls.map keysOf).flatten).Nodup) :
    lookupStr nt (logAll db calls nt) =
      some (Table.mk (t.cols ++ (calls.map keysOf).flatten)
        (t.nextId + calls.length)
        (t.rows ++ buildRows t.nextId calls)) := by
  induction calls generalizing db t with
  | nil => simpa [buildRows] using ht
  | cons d ds ih =>
      have hfilter : (keysOf d).filter (fun k => decide (k ∉ "id" :: t.cols)) = keysOf d :=
        List.filter_eq_self.mpr (fun a ha => by
          have h2 := hfresh d (by simp) a ha
          simp [h2.1, h2.2])
      have hlog : log db d nt =
          setTable db nt (Table.mk (t.cols ++ keysOf d) (t.nextId + 1)
            (t.rows ++ [Row.mk t.nextId d])) := by
        simp only [log, ht]
        rw [hfilter]
      have hstep : logAll db (d :: ds) nt = logAll (log db d nt) ds nt := rfl
      have ht' := lookupStr_setTable_self db nt
        (Table.mk (t.cols ++ keysOf d) (t.nextId + 1) (t.rows ++ [Row.mk t.nextId d]))
      have hdisj : (keysOf d).Disjoint ((ds.map keysOf).flatten) := by
        apply List.disjoint_of_nodup_append
        simpa [keysOf] using hnodup
      have hfresh' : ∀ d' ∈ ds, ∀ k ∈ keysOf d',
          k ∉ (t.cols ++ keysOf d) ∧ k ≠ "id" := by
        intro d' hd' k hk
        have h2 := hfresh d' (by simp [hd']) k hk
        refine ⟨?_, h2.2⟩
        rw [List.mem_append]
        rintro (h | h)
        · exact h2.1 h
        · exact hdisj h (List.mem_flatten.mpr ⟨keysOf d', List.mem_map_of_mem keysOf hd', hk⟩)
      have hnodup' : ((ds.map keysOf).flatten).Nodup := by
        have h2 : (keysOf d ++ (ds.map keysOf).flatten).Nodup := by
          simpa [keysOf] using hnodup
        exact h2.of_append_right
      rw [hstep, hlog]
      rw [ih (setTable db nt _) _ ht' hfresh' hnodup']
      simp [Table.mk.injEq, List.append_assoc, buildRows]
      omega

/-- Claim C5: starting from a fresh datafile, N `log` calls with
non-empty, pairwise-disjoint key sets (dict keys, so distinct within a
call, and none the reserved `id`) leave the table with columns `id`
followed by every key ever logged, exactly N rows with consecutive ids
1..N carrying exactly the logged cells, and every column not logged in
a given call reading NULL on that call's row. -/
theorem log_sequence_schema_and_rows (nt : String)
    (calls : List (List (String × Option String)))
    (hcne : calls ≠ [])
    (hne : ∀ d ∈ calls, d ≠ [])
    (hnodup : ((calls.map keysOf).flatten).Nodup)
    (hid : ∀ d ∈ calls, "id" ∉ keysOf d) :
    tableColumns (logAll emptyDB calls nt) nt = "id" :: (calls.map keysOf).flatten
    ∧ rowsOf (logAll emptyDB calls nt) nt = buildRows 1 calls
    ∧ ∀ p ∈ (buildRows 1 calls).zip calls, ∀ c, c ∉ keysOf p.2 → c ≠ "id" →
        p.1.selectVal c = none := by
  have hnull : ∀ p ∈ (buildRows 1 calls).zip calls, ∀ c, c ∉ keysOf p.2 → c ≠ "id" →
      p.1.selectVal c = none := by
    intro p hp c hc hcid
    have hcells := buildRows_zip_cells calls 1 p hp
    have hnone : lookupStr c p.1.cells = none := by
      rw [hcells]
      exact lookupStr_eq_none c p.2 (by simpa [keysOf] using hc)
    simp [Row.selectVal, hcid, hnone]
  cases calls with
  | nil => exact absurd rfl hcne
  | cons d ds =>
      have hfilter : (keysOf d).filter (fun k => decide (k ∉ "id" :: keysOf d)) = [] :=
        List.filter_eq_nil_iff.mpr (fun a ha => by simp [ha])
      have hlog1 : log emptyDB d nt =
          [(nt, Table.mk (keysOf d) 2 [Row.mk 1 d])] := by
        simp only [log, emptyDB, lookupStr]
        rw [hfilter]
        simp [setTable, lookupStr]
      have ht1 : lookupStr nt [(nt, Table.mk (keysOf d) 2 [Row.mk 1 d])] =
          some (Table.mk (keysOf d) 2 [Row.mk 1 d]) := by
        simp [lookupStr]
      have hdisj : (keysOf d).Disjoint ((ds.map keysOf).flatten) := by
        apply List.disjoint_of_nodup_append
        simpa [keysOf] using hnodup
      have hfresh : ∀ d' ∈ ds, ∀ k ∈ keysOf d', k ∉ keysOf d ∧ k ≠ "id" := by
        intro d' hd' k hk
        constructor
        · intro hmem
          exact hdisj hmem
            (List.mem_flatten.mpr ⟨keysOf d', List.mem_map_of_mem keysOf hd', hk⟩)
        · intro hkid
          exact hid d' (by simp [hd']) (hkid ▸ hk)
      have hnodup' : ((ds.map keysOf).flatten).Nodup := by
        have h2 : (keysOf d ++ (ds.map keysOf).flatten).Nodup := by
          simpa [keysOf] using hnodup
        exact h2.of_append_right
      have hstep : logAll emptyDB (d :: ds) nt = logAll (log emptyDB d nt) ds nt := rfl
      have hmain := logAll_existing nt ds (log emptyDB d nt)
        (Table.mk (keysOf d) 2 [Row.mk 1 d])
        (by rw [hlog1]; exact ht1) hfresh hnodup'
      refine ⟨?_, ?_, hnull⟩
      · rw [tableColumns, hstep, hmain]
        simp [buildRows]
      · rw [rowsOf, hstep, hmain]
        simp [buildRows]

/-- Witness C5: two log calls with disjoint singleton key sets produce
columns id, a, b and two rows with ids 1 and 2. -/
theorem log_sequence_schema_and_rows_witness :
    tableColumns (logAll emptyDB [[("a", some "1")], [("b", some "2")]] "main") "main" =
        ["id", "a", "b"] ∧
      rowsOf (logAll emptyDB [[("a", some "1")], [("b", some "2")]] "main") "main" =
        [Row.mk 1 [("a", some "1")], Row.mk 2 [("b", some "2")]] := by
  have h := log_sequence_schema_and_rows "main" [[("a", some "1")], [("b", some "2")]]
    (by decide) (by decide) (by decide) (by decide)
  refine ⟨?_, ?_⟩
  · rw [h.1]
    rfl
  · rw [h.2.1]
    rfl

theorem log_eq_setTable (db : DB) (data : List (String × Option String))
    (nt : String) : ∃ T, log db data nt = setTable db nt T := by
  unfold log
  cases lookupStr nt db with
  | none => exact ⟨_, rfl⟩
  | some t => exact ⟨_, rfl⟩

/-- Claim C6: a `log` call only extends the target table's column list
— the existing columns (with `id` first) stay in place and in order,
new keys are appended at the end — and every other table of the
datafile is left untouched.  (The read operations are pure functions of
the datafile and mutate nothing by construction.) -/
theorem log_columns_only_grow (db : DB) (data : List (String × Option String))
    (nt : String) :
    (∃ ext, tableColumns (log db data nt) nt = tableColumns db nt ++ ext)
    ∧ ∀ other, other ≠ nt → lookupStr other (log db data nt) = lookupStr other db := by
  constructor
  · cases hl : lookupStr nt db with
    | none =>
        have hfilter : (keysOf data).filter (fun k => decide (k ∉ "id" :: keysOf data)) = [] :=
          List.filter_eq_nil_iff.mpr (fun a ha => by simp [ha])
        have hlog : log db data nt =
            setTable db nt (Table.mk (keysOf data) 2 [Row.mk 1 data]) := by
          simp only [log, hl]
          rw [hfilter]
          simp
        refine ⟨"id" :: keysOf data, ?_⟩
        rw [hlog, tableColumns, lookupStr_setTable_self, tableColumns, hl]
        simp
    | some t =>
        refine ⟨(keysOf data).filter (fun k => decide (k ∉ "id" :: t.cols)), ?_⟩
        have hlog : log db data nt =
            setTable db nt (Table.mk
              (t.cols ++ (keysOf data).filter (fun k => decide (k ∉ "id" :: t.cols)))
              (t.nextId + 1) (t.rows ++ [Row.mk t.nextId data])) := by
          simp only [log, hl]
        rw [hlog, tableColumns, lookupStr_setTable_self, tableColumns, hl]
        rfl
  · intro other hother
    obtain ⟨T, hT⟩ := log_eq_setTable db data nt
    rw [hT]
    exact lookupStr_setTable_other db nt other T hother

/-- Witness C6: logging a fresh key appends it after the existing
columns of `db3` and leaves the (missing) table "other" missing. -/
theorem log_columns_only_grow_witness :
    (∃ ext, tableColumns (log db3 [("extra", some "7")] "main") "main" =
        tableColumns db3 "main" ++ ext)
    ∧ lookupStr "other" (log db3 [("extra", some "7")] "main") =
        lookupStr "other" db3 :=
  ⟨(log_columns_only_grow db3 [("extra", some "7")] "main").1,
    (log_columns_only_grow db3 [("extra", some "7")] "main").2 "other" (by decide)⟩

/-! ### Claim theorems: show_last_row, construction, missing tables -/

/-- Claim C7: `show_last_row` raises the missing-table `ValueError` for
a table name not in the datafile; for an existing empty table it does
not raise and reports no row; for a non-empty table it reports the most
recently inserted (last stored, highest id) row as a column→value
mapping. -/
theorem show_last_row_cases (db : DB) (nt : String) :
    (lookupStr nt db = none →
      show_last_row db nt =
        Except.error ("Table '" ++ nt ++ "' does not exist in the database."))
    ∧ (∀ t, lookupStr nt db = some t → t.rows = [] →
        show_last_row db nt = Except.ok none)
    ∧ (∀ t rs r, lookupStr nt db = some t → t.rows = rs ++ [r] →
        show_last_row db nt =
          Except.ok (some (("id" :: t.cols).map (fun c => (c, r.selectVal c))))) := by
  refine ⟨?_, ?_, ?_⟩
  · intro h
    simp [show_last_row, h]
  · intro t ht hrows
    simp [show_last_row, ht, hrows]
  · intro t rs r ht hrows
    simp [show_last_row, ht, hrows, List.reverse_concat]

/-- An externally created table that exists but holds no rows (the
MetricDB API itself always inserts on create; an empty table arises
from an independently prepared datafile). -/
def dbEmptyT : DB := [("t", Table.mk ["x"] 1 [])]

/-- Witness C7: missing table errors, empty table yields no row, and
`db3`'s last row is reported as id=3, m=3. -/
theorem show_last_row_cases_witness :
    show_last_row emptyDB "missing" =
        Except.error "Table 'missing' does not exist in the database." ∧
      show_last_row dbEmptyT "t" = Except.ok none ∧
      show_last_row db3 "main" = Except.ok (some [("id", some "3"), ("m", some "3")]) := by
  have h1 := (show_last_row_cases emptyDB "missing").1 (by rfl)
  have h2 := (show_last_row_cases dbEmptyT "t").2.1 (Table.mk ["x"] 1 []) (by rfl) rfl
  have h3 := (show_last_row_cases db3 "main").2.2 t3 (t3.rows.take 2)
    (Row.mk 3 [("m", some "3")]) (by rfl) (by decide)
  refine ⟨h1, h2, ?_⟩
  rw [h3]
  rfl

/-- Claim C8 (code bug): because the existence tests of source lines 19
and 22 run only after `sqlite3.connect` (line 16) has already created
the datafile, a verbose construction ALWAYS prints the "datafile
loaded" line followed by the full dump — even when the path did not
exist before the open — and the "datafile created" line is dead code,
printed for no input at all. -/
theorem init_always_reports_loaded :
    (metricDBInit (Datafile.mk false emptyDB) true).2 =
        [InitMsg.loaded, InitMsg.headerDump]
    ∧ ∀ (f : Datafile) (v : Bool), InitMsg.created ∉ (metricDBInit f v).2 := by
  constructor
  · rfl
  · intro f v
    cases v <;> simp [metricDBInit, sqlite3_connect]

/-- Claim C9: re-opening an existing datafile path leaves every stored
table, column and row unchanged — the constructor performs no DDL or
DML, only the connect and (when verbose) read-only reporting. -/
theorem reopen_preserves_tables (f : Datafile) (v : Bool)
    (h : f.existsOnDisk = true) :
    ((metricDBInit f v).1).db = f.db ∧ ((metricDBInit f v).1).existsOnDisk = true := by
  simp [metricDBInit, sqlite3_connect, h]

/-- An existing datafile holding the `db3` tables. -/
def dfSample : Datafile := Datafile.mk true db3

/-- Witness C9: re-opening `dfSample` keeps its tables intact. -/
theorem reopen_preserves_tables_witness :
    ((metricDBInit dfSample true).1).db = dfSample.db :=
  (reopen_preserves_tables dfSample true rfl).1

/-- Claim C10: for a table name absent from the datafile,
`get_moving_average` returns the 0 sentinel without raising (the
missing table is handled as the missing-column case), while
`show_last_row` and both export helpers raise the missing-table
`ValueError` for the very same name. -/
theorem missing_table_asymmetry (db : DB) (key nt : String) (w : Nat)
    (h : lookupStr nt db = none) :
    get_moving_average db key nt w = Except.ok 0
    ∧ show_last_row db nt =
        Except.error ("Table '" ++ nt ++ "' does not exist in the database.")
    ∧ get_pandas_dataframe db nt =
        Except.error ("Table '" ++ nt ++ "' does not exist in the database.")
    ∧ save_as_pandas_dataframe db nt =
        Except.error ("Table '" ++ nt ++ "' does not exist in the database.") := by
  refine ⟨?_, ?_, ?_, ?_⟩
  · simp [get_moving_average, h]
  · simp [show_last_row, h]
  · simp [get_pandas_dataframe, h]
  · simp [save_as_pandas_dataframe, h]

/-- Witness C10: the table "val" was never logged in `db3`; averaging
against it returns 0 while the row/export reads error. -/
theorem missing_table_asymmetry_witness :
    get_moving_average db3 "m" "val" 12 = Except.ok 0 ∧
      show_last_row db3 "val" =
        Except.error "Table 'val' does not exist in the database." ∧
      get_pandas_dataframe db3 "val" =
        Except.error "Table 'val' does not exist in the database." := by
  have h := missing_table_asymmetry db3 "m" "val" 12 (by rfl)
  exact ⟨h.1, h.2.1, h.2.2.1⟩

end MetricDB
